import Mathlib

/-!
Verification of the aggregation-and-threshold-evaluation logic of
`src/nutanix.py`.  The script folds host and VM inventory records into
fleet-wide totals, normalizes units (bytes -> binary GB by three integer
divisions by 1024, MiB -> "GB" by decimal division by 1000) and emits one
critical log record per limit breach, where a breach is strict
`total > limit`.

Modelling notes:
* Resource counts and byte totals are natural numbers.  The Python
  `int(h['...'])` string coercions are modelled as the already-coerced
  numeric field; `int(x/1024/1024/1024)` and `int(x/1000)` on
  non-negative integers are modelled as natural floor division
  (`x / 1024 / 1024 / 1024`, `x / 1000`).
* The `try: total += disk['disk_size_bytes'] except: pass` block is
  modelled by a fallible addition returning `Option Nat` (the lookup can
  fail when the field is absent, and the addition can fail when the
  value is not addable to an integer), with the `except: pass` branch
  keeping the accumulator unchanged.
* The six `if total > limit: logger.critical(...)` statements are
  modelled as a list of `Breach` records produced in source order.
-/

/-- Configuration limits loaded in `Nutanix.__init__`
(`cfg['limits']['hosts']` and `cfg['limits']['vms']`). -/
structure Limits where
  total_cpu_core_limit : Nat
  total_memory_usage_gb_limit : Nat
  total_storage_usage_gb_limit : Nat
  total_vms_num_sockets_limit : Nat
  total_vms_memory_size_gb_limit : Nat
  total_vms_disk_size_gb_limit : Nat
deriving DecidableEq, Repr

/-- One physical host entity from `hosts['entities']`: the three fields read
by the host fold (`num_cpu_cores`, `usage_stats['storage.capacity_bytes']`
coerced to int, `memory_capacity_in_bytes` coerced to int). -/
structure HostRecord where
  num_cpu_cores : Nat
  storage_capacity_bytes : Nat
  memory_capacity_in_bytes : Nat
deriving DecidableEq, Repr

/-- The `disk_size_bytes` field of a disk entry: present with an integer
value, absent (a storage-container reference), or present with a value that
cannot be added to an integer. -/
inductive DiskSizeField where
  | intVal (n : Nat) : DiskSizeField
  | absent : DiskSizeField
  | nonAddable : DiskSizeField
deriving DecidableEq, Repr

/-- One element of a VM's `disk_list`. -/
structure DiskEntry where
  disk_size_bytes : DiskSizeField
deriving DecidableEq, Repr

/-- One VM entity from `vms['entities']`: the fields read from
`vm['status']['resources']` by the VM fold. -/
structure VMRecord where
  num_threads_per_core : Nat
  num_vcpus_per_socket : Nat
  num_sockets : Nat
  memory_size_mib : Nat
  disk_list : List DiskEntry
deriving DecidableEq, Repr

/-- The body of the `try` block: `total_vms_disk_size_bytes +=
disk['disk_size_bytes']`.  Fails (raises) when the field is absent or its
value cannot be added to an integer; succeeds with the new accumulator
otherwise. -/
def addDiskSize (acc : Nat) (d : DiskEntry) : Option Nat :=
  match d.disk_size_bytes with
  | DiskSizeField.intVal n => some (acc + n)
  | DiskSizeField.absent => none
  | DiskSizeField.nonAddable => none

/-- One iteration of the inner `for disk in ...disk_list` loop:
the `try`/`except: pass` keeps the accumulator unchanged on failure. -/
def diskStep (acc : Nat) (d : DiskEntry) : Nat :=
  match addDiskSize acc d with
  | some acc2 => acc2
  | none => acc

/-- The size of a disk entry when it carries an addable size field. -/
def sizedBytes (d : DiskEntry) : Option Nat :=
  match d.disk_size_bytes with
  | DiskSizeField.intVal n => some n
  | _ => none

/-- Host fold, accumulator 1: `total_hosts_cpu_cores += host['num_cpu_cores']`. -/
def total_hosts_cpu_cores (hosts : List HostRecord) : Nat :=
  hosts.foldl (fun acc host => acc + host.num_cpu_cores) 0

/-- Host fold, accumulator 2:
`total_hosts_storage_usage_bytes += int(host['usage_stats']['storage.capacity_bytes'])`. -/
def total_hosts_storage_usage_bytes (hosts : List HostRecord) : Nat :=
  hosts.foldl (fun acc host => acc + host.storage_capacity_bytes) 0

/-- Host fold, accumulator 3:
`total_hosts_memory_capacity_bytes += int(host['memory_capacity_in_bytes'])`. -/
def total_hosts_memory_capacity_bytes (hosts : List HostRecord) : Nat :=
  hosts.foldl (fun acc host => acc + host.memory_capacity_in_bytes) 0

/-- The bytes-to-binary-GB conversion `int(b/1024/1024/1024)` used at
lines 126, 133 and 179 of the script. -/
def bytesToGb (b : Nat) : Nat :=
  b / 1024 / 1024 / 1024

/-- Line 126: `total_hosts_memory_capacity_gbytes =
int(total_hosts_memory_capacity_bytes/1024/1024/1024)`. -/
def total_hosts_memory_capacity_gbytes (hosts : List HostRecord) : Nat :=
  total_hosts_memory_capacity_bytes hosts / 1024 / 1024 / 1024

/-- Line 133: `total_hosts_storage_usage_gbytes =
int(total_hosts_storage_usage_bytes/1024/1024/1024)`. -/
def total_hosts_storage_usage_gbytes (hosts : List HostRecord) : Nat :=
  total_hosts_storage_usage_bytes hosts / 1024 / 1024 / 1024

/-- VM fold: `total_vms_threads_per_core += ...['num_threads_per_core']`. -/
def total_vms_threads_per_core (vms : List VMRecord) : Nat :=
  vms.foldl (fun acc vm => acc + vm.num_threads_per_core) 0

/-- VM fold: `total_vms_vcpus_per_socket += ...['num_vcpus_per_socket']`. -/
def total_vms_vcpus_per_socket (vms : List VMRecord) : Nat :=
  vms.foldl (fun acc vm => acc + vm.num_vcpus_per_socket) 0

/-- VM fold: `total_vms_num_sockets += ...['num_sockets']`. -/
def total_vms_num_sockets (vms : List VMRecord) : Nat :=
  vms.foldl (fun acc vm => acc + vm.num_sockets) 0

/-- VM fold: `total_vms_memory_size_mib += ...['memory_size_mib']`. -/
def total_vms_memory_size_mib (vms : List VMRecord) : Nat :=
  vms.foldl (fun acc vm => acc + vm.memory_size_mib) 0

/-- VM fold including the inner `for disk in ...disk_list` loop with its
`try`/`except` accumulation of `total_vms_disk_size_bytes`. -/
def total_vms_disk_size_bytes (vms : List VMRecord) : Nat :=
  vms.foldl (fun acc vm => vm.disk_list.foldl diskStep acc) 0

/-- Line 172: `total_vms_memory_size_gb = int(total_vms_memory_size_mib/1000)`. -/
def total_vms_memory_size_gb (vms : List VMRecord) : Nat :=
  total_vms_memory_size_mib vms / 1000

/-- Line 179: `total_vms_disk_size_gb = int(total_vms_disk_size_bytes/1024/1024/1024)`. -/
def total_vms_disk_size_gb (vms : List VMRecord) : Nat :=
  total_vms_disk_size_bytes vms / 1024 / 1024 / 1024

/-- The six monitored metrics, in the order their checks appear in the
script. -/
inductive Metric where
  | hostCpuCores : Metric
  | hostMemoryGb : Metric
  | hostStorageGb : Metric
  | vmSockets : Metric
  | vmMemoryGb : Metric
  | vmDiskGb : Metric
deriving DecidableEq, Repr

/-- One critical log record `logger.critical('... {} ... {}')` naming the
metric, the computed total and the configured limit. -/
structure Breach where
  metric : Metric
  total : Nat
  limit : Nat
deriving DecidableEq, Repr

/-- The three host-side threshold checks (lines 119-137), in source order:
CPU cores, memory GB, storage GB; each emits one critical record exactly
when `total > limit`. -/
def hostBreaches (L : Limits) (hosts : List HostRecord) : List Breach :=
  (if total_hosts_cpu_cores hosts > L.total_cpu_core_limit then
    [⟨Metric.hostCpuCores, total_hosts_cpu_cores hosts, L.total_cpu_core_limit⟩] else [])
  ++ (if total_hosts_memory_capacity_gbytes hosts > L.total_memory_usage_gb_limit then
    [⟨Metric.hostMemoryGb, total_hosts_memory_capacity_gbytes hosts, L.total_memory_usage_gb_limit⟩] else [])
  ++ (if total_hosts_storage_usage_gbytes hosts > L.total_storage_usage_gb_limit then
    [⟨Metric.hostStorageGb, total_hosts_storage_usage_gbytes hosts, L.total_storage_usage_gb_limit⟩] else [])

/-- The three VM-side threshold checks (lines 165-183), in source order:
sockets, memory GB, disk GB. -/
def vmBreaches (L : Limits) (vms : List VMRecord) : List Breach :=
  (if total_vms_num_sockets vms > L.total_vms_num_sockets_limit then
    [⟨Metric.vmSockets, total_vms_num_sockets vms, L.total_vms_num_sockets_limit⟩] else [])
  ++ (if total_vms_memory_size_gb vms > L.total_vms_memory_size_gb_limit then
    [⟨Metric.vmMemoryGb, total_vms_memory_size_gb vms, L.total_vms_memory_size_gb_limit⟩] else [])
  ++ (if total_vms_disk_size_gb vms > L.total_vms_disk_size_gb_limit then
    [⟨Metric.vmDiskGb, total_vms_disk_size_gb vms, L.total_vms_disk_size_gb_limit⟩] else [])

/-- All critical records emitted by one run, in source order. -/
def allBreaches (L : Limits) (hosts : List HostRecord) (vms : List VMRecord) : List Breach :=
  hostBreaches L hosts ++ vmBreaches L vms

/-- The computed total compared by the check for a given metric. -/
def metricTotal (m : Metric) (hosts : List HostRecord) (vms : List VMRecord) : Nat :=
  match m with
  | Metric.hostCpuCores => total_hosts_cpu_cores hosts
  | Metric.hostMemoryGb => total_hosts_memory_capacity_gbytes hosts
  | Metric.hostStorageGb => total_hosts_storage_usage_gbytes hosts
  | Metric.vmSockets => total_vms_num_sockets vms
  | Metric.vmMemoryGb => total_vms_memory_size_gb vms
  | Metric.vmDiskGb => total_vms_disk_size_gb vms

/-- The configured limit compared by the check for a given metric. -/
def metricLimit (m : Metric) (L : Limits) : Nat :=
  match m with
  | Metric.hostCpuCores => L.total_cpu_core_limit
  | Metric.hostMemoryGb => L.total_memory_usage_gb_limit
  | Metric.hostStorageGb => L.total_storage_usage_gb_limit
  | Metric.vmSockets => L.total_vms_num_sockets_limit
  | Metric.vmMemoryGb => L.total_vms_memory_size_gb_limit
  | Metric.vmDiskGb => L.total_vms_disk_size_gb_limit

/-- Two VMRecords that agree on every field the checks can observe
(socket count, memory MiB, disk list), i.e. may differ only in
`num_threads_per_core` and `num_vcpus_per_socket`. -/
def sameObservable (v w : VMRecord) : Prop :=
  v.num_sockets = w.num_sockets
    ∧ v.memory_size_mib = w.memory_size_mib
    ∧ v.disk_list = w.disk_list

/-- Scenario data for the VM-disk end-to-end check: one VM with a
2 * 1024^3-byte disk and a size-less storage-container disk, and a second
VM with a 1 * 1024^3-byte disk. -/
def scenarioVms : List VMRecord :=
  [⟨1, 1, 1, 0, [⟨DiskSizeField.intVal 2147483648⟩, ⟨DiskSizeField.absent⟩]⟩,
   ⟨1, 1, 1, 0, [⟨DiskSizeField.intVal 1073741824⟩]⟩]

/-! ### Helper lemmas -/

/-- Folding `acc + f x` over a list adds the sum of the images. -/
theorem foldl_add_eq {α : Type} (f : α → Nat) :
    ∀ (l : List α) (acc : Nat),
      l.foldl (fun a x => a + f x) acc = acc + (l.map f).sum := by
  intro l
  induction l with
  | nil => intro acc; simp
  | cons x xs ih =>
      intro acc
      simp [List.foldl_cons, ih, Nat.add_assoc]

/-- Membership in a conditional singleton list. -/
theorem mem_ite_singleton {c : Prop} [Decidable c] {b x : Breach} :
    (b ∈ (if c then [x] else [])) ↔ (c ∧ b = x) := by
  by_cases h : c <;> simp [h]

/-- The inner disk fold adds exactly the sizes of the addable entries. -/
theorem disk_foldl_eq (disks : List DiskEntry) :
    ∀ acc : Nat, disks.foldl diskStep acc = acc + (disks.filterMap sizedBytes).sum := by
  induction disks with
  | nil => intro acc; simp
  | cons d ds ih =>
      intro acc
      cases hd : d.disk_size_bytes with
      | intVal n =>
          simp [List.foldl_cons, diskStep, addDiskSize, hd, ih, sizedBytes,
            List.filterMap_cons, Nat.add_assoc]
      | absent =>
          simp [List.foldl_cons, diskStep, addDiskSize, hd, ih, sizedBytes,
            List.filterMap_cons]
      | nonAddable =>
          simp [List.foldl_cons, diskStep, addDiskSize, hd, ih, sizedBytes,
            List.filterMap_cons]

/-- The disk-bytes total of a single VM. -/
def vmDiskBytes (vm : VMRecord) : Nat :=
  (vm.disk_list.filterMap sizedBytes).sum

/-- The outer VM fold of disk bytes equals a sum over per-VM disk bytes. -/
theorem total_vms_disk_size_bytes_eq (vms : List VMRecord) :
    total_vms_disk_size_bytes vms = (vms.map vmDiskBytes).sum := by
  have h : ∀ (l : List VMRecord) (acc : Nat),
      l.foldl (fun acc vm => vm.disk_list.foldl diskStep acc) acc
        = acc + (l.map vmDiskBytes).sum := by
    intro l
    induction l with
    | nil => intro acc; simp
    | cons v vs ih =>
        intro acc
        rw [List.foldl_cons, disk_foldl_eq, ih]
        simp [vmDiskBytes, Nat.add_assoc]
  simpa using h vms 0

/-! ### Claim theorems -/

/-- C2: for every finite collection of HostRecords, the computed fleet
CPU-core total equals the sum of each record's `num_cpu_cores` field, and
the total is invariant under permutation of the record collection. -/
theorem host_cpu_total_eq_sum_and_order_invariant :
    (∀ hosts : List HostRecord,
      total_hosts_cpu_cores hosts = (hosts.map HostRecord.num_cpu_cores).sum)
    ∧ ∀ hosts hosts2 : List HostRecord, hosts.Perm hosts2 →
        total_hosts_cpu_cores hosts = total_hosts_cpu_cores hosts2 := by
  constructor
  · intro hosts
    simpa [total_hosts_cpu_cores] using foldl_add_eq HostRecord.num_cpu_cores hosts 0
  · intro hosts hosts2 hp
    have e1 := foldl_add_eq HostRecord.num_cpu_cores hosts 0
    have e2 := foldl_add_eq HostRecord.num_cpu_cores hosts2 0
    have hsum : (hosts.map HostRecord.num_cpu_cores).sum
        = (hosts2.map HostRecord.num_cpu_cores).sum :=
      (hp.map HostRecord.num_cpu_cores).sum_eq
    simp [total_hosts_cpu_cores, e1, e2, hsum]

/-- Witness for C2 at two concrete two-host collections in swapped order. -/
theorem host_cpu_total_eq_sum_and_order_invariant_witness :
    total_hosts_cpu_cores [⟨6, 0, 0⟩, ⟨5, 0, 0⟩]
      = total_hosts_cpu_cores [⟨5, 0, 0⟩, ⟨6, 0, 0⟩] :=
  host_cpu_total_eq_sum_and_order_invariant.2 _ _ (by decide)

/-- C3: on byte totals divisible by 1024^3, the conversion
`int(b/1024/1024/1024)` yields exactly `b / 1024^3` with no remainder
lost; the host-memory, host-storage and VM-disk GB totals all apply this
same conversion to their byte accumulators. -/
theorem bytes_to_gb_exact_on_multiples :
    (∀ b : Nat, b % 1024 ^ 3 = 0 →
      bytesToGb b = b / 1024 ^ 3 ∧ bytesToGb b * 1024 ^ 3 = b)
    ∧ (∀ hosts : List HostRecord,
        total_hosts_memory_capacity_gbytes hosts
            = bytesToGb (total_hosts_memory_capacity_bytes hosts)
        ∧ total_hosts_storage_usage_gbytes hosts
            = bytesToGb (total_hosts_storage_usage_bytes hosts))
    ∧ (∀ vms : List VMRecord,
        total_vms_disk_size_gb vms = bytesToGb (total_vms_disk_size_bytes vms)) := by
  refine ⟨?_, fun hosts => ⟨rfl, rfl⟩, fun vms => rfl⟩
  intro b hb
  have hpow : (1024 : Nat) ^ 3 = 1024 * 1024 * 1024 := by norm_num
  rw [hpow] at hb ⊢
  have hdvd : 1024 * 1024 * 1024 ∣ b := Nat.dvd_of_mod_eq_zero hb
  constructor
  · simp [bytesToGb, Nat.div_div_eq_div_mul]
  · simp [bytesToGb, Nat.div_div_eq_div_mul, Nat.div_mul_cancel hdvd]

/-- Witness for C3 at 3 * 1024^3 bytes, which converts to exactly 3 GB. -/
theorem bytes_to_gb_exact_on_multiples_witness :
    bytesToGb 3221225472 = 3221225472 / 1024 ^ 3
    ∧ bytesToGb 3221225472 * 1024 ^ 3 = 3221225472 :=
  bytes_to_gb_exact_on_multiples.1 3221225472 (by norm_num)

/-- C4: the VM memory total is converted from MiB to reported GB by
decimal division by 1000; a fleet whose MiB accumulator is 5000 reports
5 GB, whereas binary division by 1024 would have reported 4. -/
theorem vm_memory_gb_decimal_division :
    (∀ vms : List VMRecord,
      total_vms_memory_size_gb vms = total_vms_memory_size_mib vms / 1000)
    ∧ (∀ vms : List VMRecord, total_vms_memory_size_mib vms = 5000 →
        total_vms_memory_size_gb vms = 5 ∧ total_vms_memory_size_mib vms / 1024 = 4) := by
  refine ⟨fun vms => rfl, ?_⟩
  intro vms h
  rw [total_vms_memory_size_gb, h]
  norm_num

/-- Witness for C4 at a single VM with 5000 MiB of memory. -/
theorem vm_memory_gb_decimal_division_witness :
    total_vms_memory_size_gb [⟨0, 0, 0, 5000, []⟩] = 5
    ∧ total_vms_memory_size_mib [⟨0, 0, 0, 5000, []⟩] / 1024 = 4 :=
  vm_memory_gb_decimal_division.2 [⟨0, 0, 0, 5000, []⟩] (by decide)

/-- C5: a disk entry without a size field leaves the disk-bytes
accumulator unchanged (no error is raised — the step is total), and a
mixed list of sized and unsized disks folds to the starting accumulator
plus the sum of only the sized entries' size fields. -/
theorem unsized_disk_contributes_zero :
    (∀ (acc : Nat) (d : DiskEntry), d.disk_size_bytes = DiskSizeField.absent →
      diskStep acc d = acc)
    ∧ (∀ (disks : List DiskEntry) (acc : Nat),
        disks.foldl diskStep acc = acc + (disks.filterMap sizedBytes).sum) := by
  constructor
  · intro acc d hd
    simp [diskStep, addDiskSize, hd]
  · intro disks acc
    exact disk_foldl_eq disks acc

/-- Witness for C5 at a concrete accumulator and an absent-size entry. -/
theorem unsized_disk_contributes_zero_witness :
    diskStep 7 ⟨DiskSizeField.absent⟩ = 7 :=
  unsized_disk_contributes_zero.1 7 ⟨DiskSizeField.absent⟩ rfl

/-- C8: each of the six FleetTotals accumulators (host cores, host
storage bytes, host memory bytes, VM sockets, VM memory MiB, VM disk
bytes) is monotonically non-decreasing as further records are folded in:
the total of any prefix is at most the total of the extended list. -/
theorem totals_monotone_under_fold :
    (∀ (hosts tail : List HostRecord),
      total_hosts_cpu_cores hosts ≤ total_hosts_cpu_cores (hosts ++ tail)
      ∧ total_hosts_storage_usage_bytes hosts
          ≤ total_hosts_storage_usage_bytes (hosts ++ tail)
      ∧ total_hosts_memory_capacity_bytes hosts
          ≤ total_hosts_memory_capacity_bytes (hosts ++ tail))
    ∧ (∀ (vms tail : List VMRecord),
      total_vms_num_sockets vms ≤ total_vms_num_sockets (vms ++ tail)
      ∧ total_vms_memory_size_mib vms ≤ total_vms_memory_size_mib (vms ++ tail)
      ∧ total_vms_disk_size_bytes vms ≤ total_vms_disk_size_bytes (vms ++ tail)) := by
  constructor
  · intro hosts t
    refine ⟨?_, ?_, ?_⟩ <;>
      simp [total_hosts_cpu_cores, total_hosts_storage_usage_bytes,
        total_hosts_memory_capacity_bytes, foldl_add_eq, List.map_append,
        List.sum_append, Nat.le_add_right]
  · intro vms t
    refine ⟨?_, ?_, ?_⟩
    · simp [total_vms_num_sockets, foldl_add_eq, List.map_append,
        List.sum_append, Nat.le_add_right]
    · simp [total_vms_memory_size_mib, foldl_add_eq, List.map_append,
        List.sum_append, Nat.le_add_right]
    · rw [total_vms_disk_size_bytes_eq, total_vms_disk_size_bytes_eq,
        List.map_append, List.sum_append]
      exact Nat.le_add_right _ _

/-- C9: whenever the attempted addition of a disk's size field fails —
the field is absent or its value is not addable to an integer — the
`except: pass` keeps the accumulator exactly unchanged, and those are
precisely the failure cases. -/
theorem disk_add_failure_skipped :
    (∀ (acc : Nat) (d : DiskEntry), addDiskSize acc d = none → diskStep acc d = acc)
    ∧ (∀ (acc : Nat) (d : DiskEntry),
        addDiskSize acc d = none ↔
          (d.disk_size_bytes = DiskSizeField.absent
            ∨ d.disk_size_bytes = DiskSizeField.nonAddable)) := by
  constructor
  · intro acc d h
    simp [diskStep, h]
  · intro acc d
    cases hd : d.disk_size_bytes <;> simp [addDiskSize, hd]

/-- Witness for C9 at a concrete accumulator and a non-addable size value. -/
theorem disk_add_failure_skipped_witness :
    diskStep 3 ⟨DiskSizeField.nonAddable⟩ = 3 :=
  disk_add_failure_skipped.1 3 ⟨DiskSizeField.nonAddable⟩ rfl

/-- Observably equal VM lists have equal socket, memory and per-VM disk
projections. -/
theorem forall2_map_eq {vms1 vms2 : List VMRecord}
    (h : List.Forall₂ sameObservable vms1 vms2) :
    vms1.map VMRecord.num_sockets = vms2.map VMRecord.num_sockets
    ∧ vms1.map VMRecord.memory_size_mib = vms2.map VMRecord.memory_size_mib
    ∧ vms1.map vmDiskBytes = vms2.map vmDiskBytes := by
  induction h with
  | nil => exact ⟨rfl, rfl, rfl⟩
  | cons hvw hrest ih =>
      obtain ⟨hs, hm, hd⟩ := hvw
      obtain ⟨i1, i2, i3⟩ := ih
      exact ⟨by simp [i1, hs], by simp [i2, hm], by simp [vmDiskBytes, i3, hd]⟩

/-- C10: the threads-per-core and vCPUs-per-socket accumulators never
influence the output: any two VM collections that agree pointwise on all
other fields produce exactly the same breach records, values included,
for every configuration and host collection. -/
theorem threads_vcpus_noninterference :
    ∀ (L : Limits) (hosts : List HostRecord) (vms1 vms2 : List VMRecord),
      List.Forall₂ sameObservable vms1 vms2 →
      allBreaches L hosts vms1 = allBreaches L hosts vms2 := by
  intro L hosts vms1 vms2 hrel
  obtain ⟨h1, h2, h3⟩ := forall2_map_eq hrel
  have e1 : total_vms_num_sockets vms1 = total_vms_num_sockets vms2 := by
    simp [total_vms_num_sockets, foldl_add_eq, h1]
  have e2 : total_vms_memory_size_mib vms1 = total_vms_memory_size_mib vms2 := by
    simp [total_vms_memory_size_mib, foldl_add_eq, h2]
  have e3 : total_vms_disk_size_bytes vms1 = total_vms_disk_size_bytes vms2 := by
    rw [total_vms_disk_size_bytes_eq, total_vms_disk_size_bytes_eq, h3]
  simp [allBreaches, vmBreaches, total_vms_memory_size_gb,
    total_vms_disk_size_gb, e1, e2, e3]

/-- Witness for C10 at two single-VM collections differing only in their
threads-per-core and vCPUs-per-socket fields. -/
theorem threads_vcpus_noninterference_witness :
    allBreaches ⟨10, 10, 10, 10, 10, 10⟩ [] [⟨1, 1, 4, 2000, []⟩]
      = allBreaches ⟨10, 10, 10, 10, 10, 10⟩ [] [⟨8, 16, 4, 2000, []⟩] :=
  threads_vcpus_noninterference _ _ _ _
    (List.Forall₂.cons ⟨rfl, rfl, rfl⟩ List.Forall₂.nil)

/-- C1: for each of the six metrics, the critical record naming that
metric, its computed total and its configured limit is emitted if and
only if the total strictly exceeds the limit; any emitted record for the
metric carries exactly those two values; a total equal to the limit
emits nothing and a total of limit + 1 emits the record. -/
theorem breach_emitted_iff_total_gt_limit
    (L : Limits) (hosts : List HostRecord) (vms : List VMRecord) (m : Metric) :
    (Breach.mk m (metricTotal m hosts vms) (metricLimit m L) ∈ allBreaches L hosts vms
        ↔ metricLimit m L < metricTotal m hosts vms)
    ∧ (∀ b ∈ allBreaches L hosts vms, b.metric = m →
        b.total = metricTotal m hosts vms ∧ b.limit = metricLimit m L)
    ∧ (metricTotal m hosts vms = metricLimit m L →
        Breach.mk m (metricTotal m hosts vms) (metricLimit m L) ∉ allBreaches L hosts vms)
    ∧ (metricTotal m hosts vms = metricLimit m L + 1 →
        Breach.mk m (metricTotal m hosts vms) (metricLimit m L) ∈ allBreaches L hosts vms) := by
  have hmem : Breach.mk m (metricTotal m hosts vms) (metricLimit m L) ∈ allBreaches L hosts vms
      ↔ metricLimit m L < metricTotal m hosts vms := by
    cases m <;>
      simp [allBreaches, hostBreaches, vmBreaches, mem_ite_singleton,
        metricTotal, metricLimit]
  have hval : ∀ b ∈ allBreaches L hosts vms, b.metric = m →
      b.total = metricTotal m hosts vms ∧ b.limit = metricLimit m L := by
    intro b hb hm
    cases m <;>
      (simp only [allBreaches, hostBreaches, vmBreaches, List.mem_append,
        mem_ite_singleton, or_assoc] at hb
       rcases hb with ⟨h, rfl⟩ | ⟨h, rfl⟩ | ⟨h, rfl⟩ | ⟨h, rfl⟩ | ⟨h, rfl⟩ | ⟨h, rfl⟩ <;>
         simp_all [metricTotal, metricLimit])
  refine ⟨hmem, hval, ?_, ?_⟩
  · intro he hcontra
    have := hmem.mp hcontra
    omega
  · intro he
    exact hmem.mpr (by omega)

/-- Witness for C1: with a CPU-core limit of 10 and a fleet totalling 11
cores, the CPU-core record citing 11 and 10 is emitted. -/
theorem breach_emitted_iff_total_gt_limit_witness :
    Breach.mk Metric.hostCpuCores 11 10 ∈
      allBreaches ⟨10, 1000, 1000, 100, 100, 100⟩ [⟨6, 0, 0⟩, ⟨5, 0, 0⟩] [] :=
  (breach_emitted_iff_total_gt_limit ⟨10, 1000, 1000, 100, 100, 100⟩
      [⟨6, 0, 0⟩, ⟨5, 0, 0⟩] [] Metric.hostCpuCores).2.2.2 (by decide)

/-- C6: with a CPU-core limit of 10, hosts with 6 and 5 cores total 11
and produce exactly the CPU-core breach record citing 11 and 10, while
hosts with 4 and 5 cores total 9 and produce no breach record at all. -/
theorem host_cpu_end_to_end_scenario :
    total_hosts_cpu_cores [⟨6, 0, 0⟩, ⟨5, 0, 0⟩] = 11
    ∧ hostBreaches ⟨10, 1000, 1000, 100, 100, 100⟩ [⟨6, 0, 0⟩, ⟨5, 0, 0⟩]
        = [⟨Metric.hostCpuCores, 11, 10⟩]
    ∧ total_hosts_cpu_cores [⟨4, 0, 0⟩, ⟨5, 0, 0⟩] = 9
    ∧ hostBreaches ⟨10, 1000, 1000, 100, 100, 100⟩ [⟨4, 0, 0⟩, ⟨5, 0, 0⟩] = [] := by
  decide

/-- C7: the two-VM scenario with disks of 2 * 1024^3 bytes, no size
field, and 1 * 1024^3 bytes accumulates exactly 3 * 1024^3 disk bytes,
converts to exactly 3 GB, and that value is what the VM-disk check
compares against the configured limit. -/
theorem vm_disk_end_to_end_scenario :
    total_vms_disk_size_bytes scenarioVms = 3221225472
    ∧ total_vms_disk_size_gb scenarioVms = 3
    ∧ ∀ L : Limits,
        (Breach.mk Metric.vmDiskGb 3 L.total_vms_disk_size_gb_limit
            ∈ vmBreaches L scenarioVms
          ↔ L.total_vms_disk_size_gb_limit < 3) := by
  refine ⟨by decide, by decide, ?_⟩
  intro L
  have h3 : total_vms_disk_size_gb scenarioVms = 3 := by decide
  have hs : total_vms_num_sockets scenarioVms = 2 := by decide
  have hm : total_vms_memory_size_gb scenarioVms = 0 := by decide
  simp [vmBreaches, mem_ite_singleton, h3, hs, hm]

/-- Witness for C7: with a VM-disk limit of 2 GB the scenario emits the
VM-disk record citing 3 and 2. -/
theorem vm_disk_end_to_end_scenario_witness :
    Breach.mk Metric.vmDiskGb 3 2
      ∈ vmBreaches ⟨10, 10, 10, 10, 10, 2⟩ scenarioVms :=
  (vm_disk_end_to_end_scenario.2.2 ⟨10, 10, 10, 10, 10, 2⟩).mpr (by decide)
